import Mathlib

/-!
Verification development for the `flow_state` prototype (flow_state.py).

The rendering/input surface (pygame) is an external collaborator: drawing
calls are omitted, the polled mouse position, the drained event queue and
the shuffles produced by the shared pseudo-random source are passed to each
scene handler explicitly as a `Frame`.  `random.shuffle` of the list of all
grid cells is abstracted as an oracle `rng : Nat → List Cell` giving the
shuffled list produced by the t-th call; theorems that need it assume each
`rng t` is a permutation of `allCells n`.
-/

set_option maxRecDepth 4000

/-- A grid cell `(row, column)`, 0-indexed. -/
abbrev Cell := Nat × Nat

/-- `GRID_N = 5`: the fixed grid size. -/
def GRID_N : Nat := 5

/-- The list `[(r,c) for r in range(n) for c in range(n)]` built by
`distinct_random_cells` before shuffling. -/
def allCells (n : Nat) : List Cell :=
  (List.range n).flatMap (fun r => (List.range n).map (fun c => (r, c)))

/-- `distinct_random_cells(k, n)`: shuffle all cells, take the first `k`.
The shuffle result is supplied by the randomness oracle. -/
def distinct_random_cells (shuffled : List Cell) (k : Nat) (_n : Nat) : List Cell :=
  shuffled.take k

/-- `[(cells[2*i], cells[2*i+1]) for i in range(num_pairs)]`. -/
def consecutivePairs (cells : List Cell) (num_pairs : Nat) : List (Cell × Cell) :=
  (List.range num_pairs).map (fun i => (cells.getD (2*i) (0,0), cells.getD (2*i+1) (0,0)))

/-- Manhattan distance `abs(a[0]-b[0]) + abs(a[1]-b[1])`. -/
def manhattan (a b : Cell) : Int :=
  |(a.1 : Int) - (b.1 : Int)| + |(a.2 : Int) - (b.2 : Int)|

/-- `sum(abs(a[0]-b[0]) + abs(a[1]-b[1]) for a, b in pairs)`. -/
def pairScore (pairs : List (Cell × Cell)) : Int :=
  (pairs.map (fun p => manhattan p.1 p.2)).sum

/-- One iteration of the `for _ in range(tries)` loop of `generate_endpoints`:
draw cells, build pairs, score, and replace the incumbent on a strictly
greater score. -/
def genStep (rng : Nat → List Cell) (num_pairs n : Nat)
    (acc : Option (List (Cell × Cell)) × Int) (t : Nat) :
    Option (List (Cell × Cell)) × Int :=
  let cells := distinct_random_cells (rng t) (2*num_pairs) n
  let pairs := consecutivePairs cells num_pairs
  let score := pairScore pairs
  if acc.2 < score then (some pairs, score) else acc

/-- `generate_endpoints(num_pairs, n)`: 1000 trials starting from
`best = None`, `best_score = -1`; returns the final `best`. -/
def generate_endpoints (rng : Nat → List Cell) (num_pairs n : Nat) :
    Option (List (Cell × Cell)) :=
  ((List.range 1000).foldl (genStep rng num_pairs n) (none, -1)).1

/-- The pairs built by trial `t` of `generate_endpoints`. -/
def trialPairs (rng : Nat → List Cell) (num_pairs n t : Nat) : List (Cell × Cell) :=
  consecutivePairs (distinct_random_cells (rng t) (2*num_pairs) n) num_pairs

/-- The score of trial `t` of `generate_endpoints`. -/
def trialScore (rng : Nat → List Cell) (num_pairs n t : Nat) : Int :=
  pairScore (trialPairs rng num_pairs n t)

/-- The flattened list of cells of a list of endpoint pairs. -/
def flattenPairs (ps : List (Cell × Cell)) : List Cell :=
  ps.flatMap (fun p => [p.1, p.2])

/-- Application state (`AppState` dataclass); the pygame `screen` and
`clock` handles are external collaborators and carry no modelled state. -/
structure AppState where
  running : Bool := true
  scene : String := "menu"
  num_pairs : Nat := 3
  endpoints : Option (List (Cell × Cell)) := none
deriving Repr, DecidableEq

/-- The state built at startup: `AppState(screen=screen, clock=clock)`. -/
def initState : AppState := {}

/-- Key identities the handlers distinguish (`pygame.K_*`). -/
inductive Key where
  | ret
  | kpEnter
  | q
  | escape
  | k3
  | k4
  | k5
  | other
deriving Repr, DecidableEq

/-- Input events drained from the event queue. -/
inductive Ev where
  | quit
  | keydown (key : Key)
  | mousedown (button : Nat)
deriving Repr, DecidableEq

/-- Inputs consumed by one handler invocation: the polled mouse position,
the drained event list, and the randomness oracle for any shuffles. -/
structure Frame where
  mouse : Nat × Nat
  events : List Ev
  rng : Nat → List Cell

/-- `pygame.Rect(x, y, w, h)`. -/
structure Rect where
  x : Nat
  y : Nat
  w : Nat
  h : Nat
deriving Repr, DecidableEq

/-- `Rect.collidepoint(mx, my)`: inside test, right/bottom edges excluded. -/
def collidepoint (r : Rect) (m : Nat × Nat) : Bool :=
  decide (r.x ≤ m.1 ∧ m.1 < r.x + r.w ∧ r.y ≤ m.2 ∧ m.2 < r.y + r.h)

/-- Menu button rectangles: width 260, height 60, spacing 20, from y=280,
centred horizontally ((720-260)/2 = 230). -/
def menuRect (i : Nat) : Rect :=
  ⟨230, 280 + i * 80, 260, 60⟩

/-- `hover_idx`: last menu rectangle containing the mouse (loop without
break), `none` for -1. -/
def menuHover (m : Nat × Nat) : Option Nat :=
  (List.range 3).foldl (fun h i => if collidepoint (menuRect i) m then some i else h) none

/-- First menu rectangle containing the mouse (click loop with break). -/
def menuClickIdx (m : Nat × Nat) : Option Nat :=
  (List.range 3).find? (fun i => collidepoint (menuRect i) m)

/-- `sel` chosen by an enter key press: the hovered control, else index 0. -/
def hoverSel (hover : Option Nat) : Nat :=
  match hover with
  | none => 0
  | some i => i

/-- Effect of one menu event on `(running, sel)`. -/
def menuEvent (hover : Option Nat) (m : Nat × Nat)
    (acc : Bool × Option Nat) (e : Ev) : Bool × Option Nat :=
  match e with
  | Ev.quit => (false, acc.2)
  | Ev.keydown Key.ret => (acc.1, some (hoverSel hover))
  | Ev.keydown Key.kpEnter => (acc.1, some (hoverSel hover))
  | Ev.keydown Key.q => (false, acc.2)
  | Ev.keydown Key.escape => (false, acc.2)
  | Ev.keydown _ => acc
  | Ev.mousedown b =>
    if b = 1 then
      match menuClickIdx m with
      | some i => (acc.1, some i)
      | none => acc
    else acc

/-- The `if sel == 0 / 1 / 2` chain ending `scene_menu`. -/
def menuApply (app : AppState) (rng : Nat → List Cell) (sel : Option Nat) : AppState :=
  if sel = some 0 then
    {app with endpoints := generate_endpoints rng app.num_pairs GRID_N, scene := "run"}
  else if sel = some 1 then
    {app with scene := "config"}
  else if sel = some 2 then
    {app with running := false}
  else app

/-- `scene_menu`: drawing omitted; drain events updating `(running, sel)`,
then apply the selection. -/
def scene_menu (app : AppState) (f : Frame) : AppState :=
  let rs := f.events.foldl (menuEvent (menuHover f.mouse) f.mouse)
    (app.running, (none : Option Nat))
  menuApply {app with running := rs.1} f.rng rs.2

/-- Config button values `choices = [3,4,5]`. -/
def configChoices : List Nat := [3, 4, 5]

/-- Config button rectangles: width 90, height 60, spacing 20, y0=320,
x0 = (720 - 310)/2 = 205. -/
def configRect (i : Nat) : Rect :=
  ⟨205 + i * 110, 320, 90, 60⟩

/-- Config click loop (no break): assign `num_pairs` for every rectangle
containing the mouse. -/
def configClick (m : Nat × Nat) (app : AppState) : AppState :=
  (List.range 3).foldl
    (fun a i => if collidepoint (configRect i) m then
        {a with num_pairs := configChoices.getD i 0}
      else a)
    app

/-- Effect of one config event on the application state. -/
def configEvent (m : Nat × Nat) (app : AppState) (e : Ev) : AppState :=
  match e with
  | Ev.quit => {app with running := false}
  | Ev.keydown Key.escape => {app with scene := "menu"}
  | Ev.keydown Key.k3 => {app with num_pairs := 3}
  | Ev.keydown Key.k4 => {app with num_pairs := 4}
  | Ev.keydown Key.k5 => {app with num_pairs := 5}
  | Ev.keydown _ => app
  | Ev.mousedown b => if b = 1 then configClick m app else app

/-- `scene_config`: drawing omitted; drain events. -/
def scene_config (app : AppState) (f : Frame) : AppState :=
  f.events.foldl (configEvent f.mouse) app

/-- Effect of one run-scene event on the application state. -/
def runEvent (app : AppState) (e : Ev) : AppState :=
  match e with
  | Ev.quit => {app with running := false}
  | Ev.keydown Key.escape => {app with scene := "menu"}
  | _ => app

/-- `scene_run`: drawing omitted; drain events. -/
def scene_run (app : AppState) (f : Frame) : AppState :=
  f.events.foldl runEvent app

/-- One iteration of the `while app.running` loop body: dispatch on
`scene`, unknown values reset to `"menu"` without invoking a handler. -/
def mainStep (app : AppState) (f : Frame) : AppState :=
  if app.scene = "menu" then scene_menu app f
  else if app.scene = "config" then scene_config app f
  else if app.scene = "run" then scene_run app f
  else {app with scene := "menu"}

/-- Outcome of running the main loop with a fuel bound: `exited code`
models `sys.exit(code)` after the loop; `fuelOut` means the loop was
still running when the fuel ran out. -/
inductive MainOutcome where
  | exited (code : Nat)
  | fuelOut (s : AppState)
deriving Repr, DecidableEq

/-- The `while app.running` loop of `main`, iteration `i` consuming
`frames i`; on exit, `pygame.quit()` then `sys.exit(0)`. -/
def mainLoop (frames : Nat → Frame) (fuel i : Nat) (s : AppState) : MainOutcome :=
  match fuel with
  | 0 => MainOutcome.fuelOut s
  | Nat.succ fuel1 =>
    if s.running then mainLoop frames fuel1 (i + 1) (mainStep s (frames i))
    else MainOutcome.exited 0

/-- A frame is valid when every shuffle its oracle yields is a permutation
of all grid cells. -/
def ValidFrame (f : Frame) : Prop :=
  ∀ t, (f.rng t).Perm (allCells 5)

/-- States reachable from the startup state through main-loop iterations
with valid frames. -/
inductive Reachable : AppState → Prop where
  | init : Reachable initState
  | step (s : AppState) (f : Frame) : Reachable s → ValidFrame f → Reachable (mainStep s f)

/-- A constant randomness oracle: every shuffle returns the unshuffled
cell list (the identity permutation). -/
def constShuffle : Nat → List Cell := fun _ => allCells 5

/-- A concrete frame: mouse at the origin (hovering no control), a single
enter key press. -/
def enterFrame : Frame := ⟨(0, 0), [Ev.keydown Key.ret], constShuffle⟩

/-- A concrete frame with no events. -/
def emptyFrame : Frame := ⟨(0, 0), [], constShuffle⟩

/-- An oracle agreeing with `constShuffle` on the first 1000 shuffles and
differing afterwards. -/
def altShuffle : Nat → List Cell := fun t => if t < 1000 then allCells 5 else []

/-- A concrete state showing the run scene. -/
def runState0 : AppState := {initState with scene := "run"}

/-- A concrete frame carrying a single Escape key press. -/
def escFrame : Frame := ⟨(0, 0), [Ev.keydown Key.escape], constShuffle⟩

/-- The data-model invariant: `num_pairs` is 3, 4 or 5, and in the run
scene `endpoints` holds exactly `num_pairs` pairs with pairwise distinct
cells. -/
def StateInv (s : AppState) : Prop :=
  (s.num_pairs = 3 ∨ s.num_pairs = 4 ∨ s.num_pairs = 5) ∧
  (s.scene = "run" →
    ∃ ps, s.endpoints = some ps ∧ ps.length = s.num_pairs ∧ (flattenPairs ps).Nodup)

/-- What one config-scene event may do to the state: `num_pairs` is kept
or set to 3, 4 or 5; `scene` is kept or set to `"menu"`; `endpoints` is
untouched. -/
def ConfigPre (a b : AppState) : Prop :=
  (b.num_pairs = a.num_pairs ∨ b.num_pairs = 3 ∨ b.num_pairs = 4 ∨ b.num_pairs = 5) ∧
  (b.scene = a.scene ∨ b.scene = "menu") ∧
  b.endpoints = a.endpoints

/-- What one run-scene event may do to the state: `num_pairs` and
`endpoints` are untouched; `scene` is kept or set to `"menu"`. -/
def RunPre (a b : AppState) : Prop :=
  b.num_pairs = a.num_pairs ∧
  b.endpoints = a.endpoints ∧
  (b.scene = a.scene ∨ b.scene = "menu")

lemma pairScore_nonneg (ps : List (Cell × Cell)) : 0 ≤ pairScore ps := by
  apply List.sum_nonneg
  intro x hx
  simp only [List.mem_map] at hx
  obtain ⟨p, _, rfl⟩ := hx
  exact add_nonneg (abs_nonneg _) (abs_nonneg _)

lemma genFold_spec (rng : Nat → List Cell) (k n : Nat) :
    ∀ m, 0 < m → ∃ t0, t0 < m ∧
      (List.range m).foldl (genStep rng k n) (none, -1) =
        (some (trialPairs rng k n t0), trialScore rng k n t0) ∧
      (∀ t, t < m → trialScore rng k n t ≤ trialScore rng k n t0) ∧
      (∀ t, t < t0 → trialScore rng k n t < trialScore rng k n t0) := by
  intro m
  induction m with
  | zero => intro h; exact absurd h (lt_irrefl 0)
  | succ m ih =>
    intro _
    rw [List.range_succ, List.foldl_append, List.foldl_cons, List.foldl_nil]
    by_cases hm : 0 < m
    · obtain ⟨t0, ht0, heq, hle, hlt⟩ := ih hm
      rw [heq]
      by_cases hcmp : trialScore rng k n t0 < trialScore rng k n m
      · refine ⟨m, by omega, ?_, ?_, ?_⟩
        · simp only [genStep, trialPairs, trialScore] at hcmp ⊢
          rw [if_pos hcmp]
        · intro t ht
          rcases Nat.lt_succ_iff_lt_or_eq.mp ht with h | rfl
          · exact le_of_lt (lt_of_le_of_lt (hle t h) hcmp)
          · exact le_refl _
        · intro t ht
          exact lt_of_le_of_lt (hle t ht) hcmp
      · refine ⟨t0, by omega, ?_, ?_, hlt⟩
        · simp only [genStep, trialPairs, trialScore] at hcmp ⊢
          rw [if_neg hcmp]
        · intro t ht
          rcases Nat.lt_succ_iff_lt_or_eq.mp ht with h | rfl
          · exact hle t h
          · exact not_lt.mp hcmp
    · have hm0 : m = 0 := by omega
      subst hm0
      have hpos : (-1 : Int) < trialScore rng k n 0 :=
        lt_of_lt_of_le (by norm_num) (pairScore_nonneg _)
      refine ⟨0, by omega, ?_, ?_, ?_⟩
      · simp only [List.range_zero, List.foldl_nil]
        simp only [genStep, trialPairs, trialScore] at hpos ⊢
        rw [if_pos hpos]
      · intro t ht
        have ht0 : t = 0 := by omega
        subst ht0
        exact le_refl _
      · intro t ht
        exact absurd ht (Nat.not_lt_zero t)

lemma generate_endpoints_spec (rng : Nat → List Cell) (k n : Nat) :
    ∃ t0, t0 < 1000 ∧
      generate_endpoints rng k n = some (trialPairs rng k n t0) ∧
      (∀ t, t < 1000 → trialScore rng k n t ≤ trialScore rng k n t0) ∧
      (∀ t, t < t0 → trialScore rng k n t < trialScore rng k n t0) := by
  obtain ⟨t0, h1, h2, h3, h4⟩ := genFold_spec rng k n 1000 (by norm_num)
  refine ⟨t0, h1, ?_, h3, h4⟩
  unfold generate_endpoints
  rw [h2]

lemma consecutivePairs_length (cells : List Cell) (k : Nat) :
    (consecutivePairs cells k).length = k := by
  simp [consecutivePairs]

lemma consecutivePairs_succ (cells : List Cell) (k : Nat) :
    consecutivePairs cells (k+1) =
      consecutivePairs cells k ++ [(cells.getD (2*k) (0,0), cells.getD (2*k+1) (0,0))] := by
  simp [consecutivePairs, List.range_succ]

lemma flattenPairs_append (a b : List (Cell × Cell)) :
    flattenPairs (a ++ b) = flattenPairs a ++ flattenPairs b := by
  simp [flattenPairs]

lemma flattenPairs_singleton (p : Cell × Cell) : flattenPairs [p] = [p.1, p.2] := by
  simp [flattenPairs]

lemma flatten_consecutivePairs (cells : List Cell) (k : Nat) (h : 2*k ≤ cells.length) :
    flattenPairs (consecutivePairs cells k) = cells.take (2*k) := by
  induction k with
  | zero => simp [consecutivePairs, flattenPairs]
  | succ k ih =>
    have h2k : 2*k ≤ cells.length := by omega
    have hk1 : 2*k < cells.length := by omega
    have hk2 : 2*k+1 < cells.length := by omega
    have g1 : cells.getD (2*k) (0,0) = cells[2*k] := List.getD_eq_getElem cells (0,0) hk1
    have g2 : cells.getD (2*k+1) (0,0) = cells[2*k+1] := List.getD_eq_getElem cells (0,0) hk2
    rw [consecutivePairs_succ, flattenPairs_append, ih h2k, flattenPairs_singleton]
    simp only []
    rw [g1, g2]
    have e2 : 2*(k+1) = (2*k+1)+1 := by ring
    rw [e2, ← List.take_concat_get' cells (2*k+1) hk2, ← List.take_concat_get' cells (2*k) hk1]
    rw [List.append_assoc, List.singleton_append]

lemma pair_ne_of_flatten_nodup :
    ∀ ps : List (Cell × Cell), (flattenPairs ps).Nodup → ∀ p ∈ ps, p.1 ≠ p.2 := by
  intro ps
  induction ps with
  | nil => intro _ p hp; simp at hp
  | cons q ps ih =>
    intro h p hp
    have hf : flattenPairs (q :: ps) = q.1 :: q.2 :: flattenPairs ps := by
      simp [flattenPairs]
    rw [hf] at h
    rcases List.mem_cons.mp hp with rfl | hp2
    · simp only [List.nodup_cons] at h
      intro e
      exact h.1 (by rw [e]; exact List.mem_cons_self _ _)
    · exact ih (List.nodup_cons.mp (List.nodup_cons.mp h).2).2 p hp2

lemma allCells_nodup : (allCells 5).Nodup := by decide

lemma allCells_length : (allCells 5).length = 25 := by decide

lemma generate_endpoints_good (rng : Nat → List Cell) (k : Nat)
    (hk : k = 3 ∨ k = 4 ∨ k = 5) (hrng : ∀ t, (rng t).Perm (allCells 5)) :
    ∃ ps, generate_endpoints rng k 5 = some ps ∧ ps.length = k ∧ (flattenPairs ps).Nodup := by
  obtain ⟨t0, _, hgen, _, _⟩ := generate_endpoints_spec rng k 5
  refine ⟨trialPairs rng k 5 t0, hgen, ?_, ?_⟩
  · simp [trialPairs, consecutivePairs_length]
  · have hlen : (rng t0).length = 25 := by
      rw [(hrng t0).length_eq, allCells_length]
    have hnd : (rng t0).Nodup := ((hrng t0).nodup_iff).mpr allCells_nodup
    have hk2 : 2*k ≤ 25 := by rcases hk with rfl | rfl | rfl <;> norm_num
    have htake : 2*k ≤ ((rng t0).take (2*k)).length := by
      rw [List.length_take]; omega
    have hfl : flattenPairs (trialPairs rng k 5 t0) = ((rng t0).take (2*k)).take (2*k) := by
      simp only [trialPairs, distinct_random_cells]
      exact flatten_consecutivePairs _ _ htake
    rw [hfl]
    exact hnd.sublist ((List.take_sublist _ _).trans (List.take_sublist _ _))

lemma stateInv_init : StateInv initState := by
  constructor
  · exact Or.inl rfl
  · intro h
    exact absurd h (by decide)

lemma menuApply_inv (app : AppState) (rng : Nat → List Cell) (sel : Option Nat)
    (h : StateInv app) (hrng : ∀ t, (rng t).Perm (allCells 5)) :
    StateInv (menuApply app rng sel) := by
  unfold menuApply
  split_ifs with h0 h1 h2
  · refine ⟨h.1, fun _ => ?_⟩
    obtain ⟨ps, hg, hlen, hnd⟩ := generate_endpoints_good rng app.num_pairs h.1 hrng
    exact ⟨ps, hg, hlen, hnd⟩
  · refine ⟨h.1, fun hr => ?_⟩
    exact absurd (show ("config" : String) = "run" from hr) (by decide)
  · refine ⟨h.1, fun hr => ?_⟩
    obtain ⟨ps, he, hl, hn⟩ := h.2 hr
    exact ⟨ps, he, hl, hn⟩
  · exact h

lemma scene_menu_inv (app : AppState) (f : Frame)
    (h : StateInv app) (hf : ValidFrame f) : StateInv (scene_menu app f) := by
  exact menuApply_inv _ f.rng _ ⟨h.1, fun hr => h.2 hr⟩ hf

lemma configPre_refl (a : AppState) : ConfigPre a a :=
  ⟨Or.inl rfl, Or.inl rfl, rfl⟩

lemma configPre_trans {a b c : AppState} :
    ConfigPre a b → ConfigPre b c → ConfigPre a c := by
  intro h1 h2
  refine ⟨?_, ?_, h2.2.2.trans h1.2.2⟩
  · have e1 := h1.1
    have e2 := h2.1
    omega
  · rcases h2.2.1 with e | e
    · rcases h1.2.1 with f | f
      · exact Or.inl (e.trans f)
      · exact Or.inr (e.trans f)
    · exact Or.inr e

lemma configClick_pre (m : Nat × Nat) (a : AppState) : ConfigPre a (configClick m a) := by
  unfold configClick
  rw [show List.range 3 = [0, 1, 2] from rfl]
  simp only [List.foldl_cons, List.foldl_nil]
  split_ifs <;> simp [ConfigPre, configChoices]

lemma configEvent_pre (m : Nat × Nat) (a : AppState) (e : Ev) :
    ConfigPre a (configEvent m a e) := by
  cases e with
  | quit => exact ⟨Or.inl rfl, Or.inl rfl, rfl⟩
  | keydown k => cases k <;> simp [configEvent, ConfigPre]
  | mousedown b =>
    simp only [configEvent]
    split_ifs with hb
    · exact configClick_pre m a
    · exact configPre_refl a

lemma config_fold_pre (m : Nat × Nat) :
    ∀ (evs : List Ev) (a : AppState), ConfigPre a (evs.foldl (configEvent m) a) := by
  intro evs
  induction evs with
  | nil => intro a; exact configPre_refl a
  | cons e evs ih =>
    intro a
    rw [List.foldl_cons]
    exact configPre_trans (configEvent_pre m a e) (ih (configEvent m a e))

lemma scene_config_inv (app : AppState) (f : Frame)
    (h : StateInv app) (hs : app.scene = "config") : StateInv (scene_config app f) := by
  obtain ⟨hnum, hscene, hep⟩ := config_fold_pre f.mouse f.events app
  unfold scene_config
  constructor
  · have e1 := h.1
    omega
  · intro hr
    rcases hscene with e | e
    · rw [hs] at e
      exact absurd (e.symm.trans hr) (by decide)
    · exact absurd (e.symm.trans hr) (by decide)

lemma runPre_trans {a b c : AppState} : RunPre a b → RunPre b c → RunPre a c := by
  intro h1 h2
  refine ⟨h2.1.trans h1.1, h2.2.1.trans h1.2.1, ?_⟩
  rcases h2.2.2 with e | e
  · rcases h1.2.2 with f | f
    · exact Or.inl (e.trans f)
    · exact Or.inr (e.trans f)
  · exact Or.inr e

lemma runEvent_pre (a : AppState) (e : Ev) : RunPre a (runEvent a e) := by
  cases e with
  | quit => exact ⟨rfl, rfl, Or.inl rfl⟩
  | keydown k => cases k <;> simp [runEvent, RunPre]
  | mousedown b => exact ⟨rfl, rfl, Or.inl rfl⟩

lemma run_fold_pre :
    ∀ (evs : List Ev) (a : AppState), RunPre a (evs.foldl runEvent a) := by
  intro evs
  induction evs with
  | nil => intro a; exact ⟨rfl, rfl, Or.inl rfl⟩
  | cons e evs ih =>
    intro a
    rw [List.foldl_cons]
    exact runPre_trans (runEvent_pre a e) (ih (runEvent a e))

lemma scene_run_inv (app : AppState) (f : Frame) (h : StateInv app) :
    StateInv (scene_run app f) := by
  obtain ⟨hnum, hep, hscene⟩ := run_fold_pre f.events app
  unfold scene_run
  constructor
  · rw [hnum]
    exact h.1
  · intro hr
    rcases hscene with e | e
    · obtain ⟨ps, he, hl, hn⟩ := h.2 (e.symm.trans hr)
      refine ⟨ps, hep.trans he, ?_, hn⟩
      rw [hnum]
      exact hl
    · exact absurd (e.symm.trans hr) (by decide)

lemma mainStep_inv (s : AppState) (f : Frame) (h : StateInv s) (hf : ValidFrame f) :
    StateInv (mainStep s f) := by
  unfold mainStep
  split_ifs with h1 h2 h3
  · exact scene_menu_inv s f h hf
  · exact scene_config_inv s f h h2
  · exact scene_run_inv s f h
  · exact ⟨h.1, fun hr => absurd (show ("menu" : String) = "run" from hr) (by decide)⟩

lemma reachable_inv (s : AppState) (h : Reachable s) : StateInv s := by
  induction h with
  | init => exact stateInv_init
  | step s f hs hf ih => exact mainStep_inv s f ih hf

lemma genFold_congr (rng1 rng2 : Nat → List Cell) (k n : Nat) :
    ∀ m, (∀ t, t < m → rng1 t = rng2 t) →
      (List.range m).foldl (genStep rng1 k n) (none, -1) =
      (List.range m).foldl (genStep rng2 k n) (none, -1) := by
  intro m
  induction m with
  | zero => intro _; rfl
  | succ m ih =>
    intro h
    rw [List.range_succ, List.foldl_append, List.foldl_append,
      List.foldl_cons, List.foldl_cons, List.foldl_nil, List.foldl_nil]
    rw [ih (fun t ht => h t (by omega))]
    unfold genStep
    rw [h m (by omega)]

lemma mainLoop_exit_code (frames : Nat → Frame) :
    ∀ (fuel i : Nat) (s : AppState) (code : Nat),
      mainLoop frames fuel i s = MainOutcome.exited code → code = 0 := by
  intro fuel
  induction fuel with
  | zero =>
    intro i s code h
    simp [mainLoop] at h
  | succ n ih =>
    intro i s code h
    rw [mainLoop] at h
    split_ifs at h
    · exact ih _ _ _ h
    · injection h with h2
      exact h2.symm

/-- Claim C1: for every numPairs in {3,4,5} and N = 5, `generate_endpoints`
returns a sequence of exactly numPairs pairs and the flattened list of
2*numPairs cells has no duplicate cell, for any randomness oracle whose
shuffles are permutations of the 25 grid cells. -/
theorem generate_endpoints_count_nodup (rng : Nat → List Cell) (k : Nat)
    (hk : k = 3 ∨ k = 4 ∨ k = 5) (hrng : ∀ t, (rng t).Perm (allCells 5)) :
    ∃ ps, generate_endpoints rng k 5 = some ps ∧
      ps.length = k ∧ (flattenPairs ps).Nodup :=
  generate_endpoints_good rng k hk hrng

/-- Witness for C1 at numPairs = 3 with the identity shuffles. -/
theorem generate_endpoints_count_nodup_witness :
    ∃ ps, generate_endpoints constShuffle 3 5 = some ps ∧
      ps.length = 3 ∧ (flattenPairs ps).Nodup :=
  generate_endpoints_count_nodup constShuffle 3 (Or.inl rfl) (fun _ => List.Perm.refl _)

/-- Claim C2: `generate_endpoints` performs exactly 1000 trials; trial t
builds its cells with `distinct_random_cells` from the t-th full shuffle,
partitions them into consecutive-slot pairs, scores by summed Manhattan
distance (`trialScore`), and the result is the first-seen maximum-score
trial: every trial scores at most the winner, and every earlier trial
scores strictly less. -/
theorem generate_endpoints_trials (rng : Nat → List Cell) (k n : Nat) :
    ∃ t0, t0 < 1000 ∧
      generate_endpoints rng k n =
        some (consecutivePairs (distinct_random_cells (rng t0) (2*k) n) k) ∧
      (∀ t, t < 1000 → trialScore rng k n t ≤ trialScore rng k n t0) ∧
      (∀ t, t < t0 → trialScore rng k n t < trialScore rng k n t0) := by
  obtain ⟨t0, h1, h2, h3, h4⟩ := generate_endpoints_spec rng k n
  exact ⟨t0, h1, h2, h3, h4⟩

/-- Witness for C2 at numPairs = 3, N = 5 with the identity shuffles. -/
theorem generate_endpoints_trials_witness :
    ∃ t0, t0 < 1000 ∧
      generate_endpoints constShuffle 3 5 =
        some (consecutivePairs (distinct_random_cells (constShuffle t0) 6 5) 3) ∧
      (∀ t, t < 1000 → trialScore constShuffle 3 5 t ≤ trialScore constShuffle 3 5 t0) ∧
      (∀ t, t < t0 → trialScore constShuffle 3 5 t < trialScore constShuffle 3 5 t0) :=
  generate_endpoints_trials constShuffle 3 5

/-- Claim C3: every reachable state showing the run scene has `endpoints`
holding exactly `num_pairs` pairs, each pair's two cells distinct, and all
cells across all pairs pairwise distinct. -/
theorem run_scene_endpoints (s : AppState) (h : Reachable s) (hr : s.scene = "run") :
    ∃ ps, s.endpoints = some ps ∧ ps.length = s.num_pairs ∧
      (∀ p ∈ ps, p.1 ≠ p.2) ∧ (flattenPairs ps).Nodup := by
  obtain ⟨ps, h1, h2, h3⟩ := (reachable_inv s h).2 hr
  exact ⟨ps, h1, h2, pair_ne_of_flatten_nodup ps h3, h3⟩

/-- Witness for C3: the state reached from the menu by one Enter press. -/
theorem run_scene_endpoints_witness :
    ∃ ps, (mainStep initState enterFrame).endpoints = some ps ∧
      ps.length = (mainStep initState enterFrame).num_pairs ∧
      (∀ p ∈ ps, p.1 ≠ p.2) ∧ (flattenPairs ps).Nodup :=
  run_scene_endpoints (mainStep initState enterFrame)
    (Reachable.step initState enterFrame Reachable.init (fun _ => List.Perm.refl _))
    rfl

/-- Claim C4: the score of the returned pairing is greater than or equal
to the score of every trial sampled in the same run. -/
theorem generate_endpoints_max (rng : Nat → List Cell) (k n : Nat) :
    ∃ ps, generate_endpoints rng k n = some ps ∧
      ∀ t, t < 1000 → trialScore rng k n t ≤ pairScore ps := by
  obtain ⟨t0, _, h2, h3, _⟩ := generate_endpoints_spec rng k n
  refine ⟨trialPairs rng k n t0, h2, ?_⟩
  intro t ht
  exact h3 t ht

/-- Witness for C4 at numPairs = 3, N = 5 with the identity shuffles. -/
theorem generate_endpoints_max_witness :
    ∃ ps, generate_endpoints constShuffle 3 5 = some ps ∧
      ∀ t, t < 1000 → trialScore constShuffle 3 5 t ≤ pairScore ps :=
  generate_endpoints_max constShuffle 3 5

/-- Claim C5: `generate_endpoints` is deterministic given the random
source: oracles agreeing on every shuffle the run consumes (the 1000
trials) give identical output. -/
theorem generate_endpoints_deterministic (rng1 rng2 : Nat → List Cell) (k n : Nat)
    (h : ∀ t, t < 1000 → rng1 t = rng2 t) :
    generate_endpoints rng1 k n = generate_endpoints rng2 k n := by
  unfold generate_endpoints
  rw [genFold_congr rng1 rng2 k n 1000 h]

/-- Witness for C5: two oracles equal on the consumed shuffles only. -/
theorem generate_endpoints_deterministic_witness :
    generate_endpoints constShuffle 3 5 = generate_endpoints altShuffle 3 5 :=
  generate_endpoints_deterministic constShuffle altShuffle 3 5
    (fun t ht => by simp [constShuffle, altShuffle, ht])

/-- Claim C6: numPairs ∈ {3,4,5} holds in every reachable state (it holds
initially and every handler either keeps it or assigns 3, 4 or 5). -/
theorem num_pairs_range (s : AppState) (h : Reachable s) :
    s.num_pairs = 3 ∨ s.num_pairs = 4 ∨ s.num_pairs = 5 :=
  (reachable_inv s h).1

/-- Witness for C6 at the startup state. -/
theorem num_pairs_range_witness :
    initState.num_pairs = 3 ∨ initState.num_pairs = 4 ∨ initState.num_pairs = 5 :=
  num_pairs_range initState Reachable.init

/-- Claim C7: processing an Escape key press in the run scene sets the
scene to "menu" and leaves every other field unchanged: `num_pairs` keeps
its value and `endpoints` is not cleared. -/
theorem run_escape_to_menu (app : AppState) (m : Nat × Nat) (rng : Nat → List Cell)
    (h : app.scene = "run") :
    mainStep app ⟨m, [Ev.keydown Key.escape], rng⟩ = {app with scene := "menu"} ∧
    (mainStep app ⟨m, [Ev.keydown Key.escape], rng⟩).num_pairs = app.num_pairs ∧
    (mainStep app ⟨m, [Ev.keydown Key.escape], rng⟩).endpoints = app.endpoints := by
  have hstep : mainStep app ⟨m, [Ev.keydown Key.escape], rng⟩
      = scene_run app ⟨m, [Ev.keydown Key.escape], rng⟩ := by
    unfold mainStep
    rw [h]
    rfl
  rw [hstep]
  exact ⟨rfl, rfl, rfl⟩

/-- Witness for C7 at a concrete run-scene state. -/
theorem run_escape_to_menu_witness :
    mainStep runState0 escFrame = {runState0 with scene := "menu"} ∧
    (mainStep runState0 escFrame).num_pairs = runState0.num_pairs ∧
    (mainStep runState0 escFrame).endpoints = runState0.endpoints :=
  run_escape_to_menu runState0 (0, 0) constShuffle rfl

/-- Claim C8: in the menu scene an Enter key press selects the hovered
control (the computed selection is the hovered index, default 0), and
with no control hovered the press regenerates `endpoints` with the
current `num_pairs` and moves the scene to "run". -/
theorem menu_enter_selects (app : AppState) (m : Nat × Nat) (rng : Nat → List Cell) :
    (([Ev.keydown Key.ret].foldl (menuEvent (menuHover m) m)
        (app.running, (none : Option Nat))).2 = some (hoverSel (menuHover m))) ∧
    (menuHover m = none →
      scene_menu app ⟨m, [Ev.keydown Key.ret], rng⟩ =
        { app with
          endpoints := generate_endpoints rng app.num_pairs GRID_N,
          scene := "run" }) := by
  constructor
  · rfl
  · intro h
    have e : scene_menu app ⟨m, [Ev.keydown Key.ret], rng⟩
        = menuApply {app with running := app.running} rng
            (some (hoverSel (menuHover m))) := rfl
    rw [e, h]
    rfl

/-- Witness for C8: mouse at the origin hovers no control. -/
theorem menu_enter_selects_witness :
    scene_menu initState enterFrame =
      { initState with
        endpoints := generate_endpoints constShuffle initState.num_pairs GRID_N,
        scene := "run" } :=
  (menu_enter_selects initState (0, 0) constShuffle).2 rfl

/-- Claim C9: the main loop iterates exactly while `running` is true; an
iteration whose scene is none of "menu", "config", "run" resets the scene
to "menu" without invoking any handler; and whenever the loop exits, the
exit status is 0. -/
theorem main_loop_behaviour (frames : Nat → Frame) (fuel i : Nat) (s : AppState)
    (f : Frame) (code : Nat) :
    (s.running = false → mainLoop frames (fuel+1) i s = MainOutcome.exited 0) ∧
    (s.running = true →
      mainLoop frames (fuel+1) i s = mainLoop frames fuel (i+1) (mainStep s (frames i))) ∧
    (s.scene ≠ "menu" → s.scene ≠ "config" → s.scene ≠ "run" →
      mainStep s f = {s with scene := "menu"}) ∧
    (mainLoop frames fuel i s = MainOutcome.exited code → code = 0) := by
  refine ⟨?_, ?_, ?_, mainLoop_exit_code frames fuel i s code⟩
  · intro h
    rw [mainLoop]
    simp [h]
  · intro h
    rw [mainLoop]
    simp [h]
  · intro h1 h2 h3
    unfold mainStep
    rw [if_neg h1, if_neg h2, if_neg h3]

/-- Witness for C9: a stopped state exits immediately with status 0. -/
theorem main_loop_behaviour_witness :
    mainLoop (fun _ => emptyFrame) 1 0 {initState with running := false}
      = MainOutcome.exited 0 :=
  (main_loop_behaviour (fun _ => emptyFrame) 0 0 {initState with running := false}
    emptyFrame 0).1 rfl

/-- Claim C10: in the menu scene a Q or Escape key press sets `running`
to false, leaving the rest of the state unchanged. -/
theorem menu_q_escape_quits (app : AppState) (m : Nat × Nat) (rng : Nat → List Cell)
    (k : Key) (h : k = Key.q ∨ k = Key.escape) :
    scene_menu app ⟨m, [Ev.keydown k], rng⟩ = {app with running := false} := by
  rcases h with rfl | rfl <;> rfl

/-- Witness for C10 with the Q key. -/
theorem menu_q_escape_quits_witness :
    scene_menu initState ⟨(0, 0), [Ev.keydown Key.q], constShuffle⟩
      = {initState with running := false} :=
  menu_q_escape_quits initState (0, 0) constShuffle Key.q (Or.inl rfl)
